import Mathlib

/- Verification development for the workflow engine of the
   architect-multi-agent repository: the static 18-stage graph, the
   gate-approval state machine, inter-stage input aggregation and the
   recursive stage runner, embedded shallowly from workflow_engine.py
   and backend/main.py, together with theorems settling the
   behavioural claims of the specification. -/

namespace ArchWorkflow

/-- One entry of the static stage table: display name, ordered agent
identifiers, and the optional trailing decision gate. -/
structure StageInfo where
  name : String
  agents : List String
  gate_after : Option String
deriving DecidableEq, Repr

/-- One entry of the static gate table: display name and the stage number
after which the gate blocks progression. -/
structure GateInfo where
  name : String
  stage_before : Nat
deriving DecidableEq, Repr

/-- The static 18-stage workflow table, transcribed from the
WORKFLOW_STAGES dictionary of workflow_engine.py. -/
def WORKFLOW_STAGES : List (Nat × StageInfo) := [
  (1, ⟨"Client Intake", ["briefing_constraint_extraction_agent"], some "G0"⟩),
  (2, ⟨"Data & Constraints Harvest", ["data_harvester_agent", "geospatial_site_context_agent"], none⟩),
  (3, ⟨"Feasibility & Risk Scan", ["risk_mitigation_agent"], none⟩),
  (4, ⟨"Optioneering & Strategic Scenarios", ["optioneering_strategy_agent"], some "G1"⟩),
  (5, ⟨"Concept Massing & Facade", ["massing_facade_agent"], none⟩),
  (6, ⟨"Space Planning & Adjacency", ["space_planning_adjacency_agent", "interior_design_agent"], some "G2"⟩),
  (7, ⟨"Structural & Material Strategy", ["structural_design_agent"], none⟩),
  (8, ⟨"MEP & Sustainability Strategy", ["mep_systems_agent", "sustainability_energy_agent"], some "G3"⟩),
  (9, ⟨"Cost Plan & Schedule Baseline", ["cost_schedule_agent"], none⟩),
  (10, ⟨"Detailed Design & BIM Development", ["bim_cad_documentation_agent", "architectural_detailing_agent", "visualization_agent"], some "G4"⟩),
  (11, ⟨"Clash Detection & Coordination", ["clash_coordination_agent"], none⟩),
  (12, ⟨"Code Compliance & Standards Check", ["code_standards_agent", "compliance_and_construction_agent"], some "G5"⟩),
  (13, ⟨"Procurement & Supply Chain Strategy", ["procurement_supply_chain_agent"], none⟩),
  (14, ⟨"Site Logistics & Safety Plan", ["site_logistics_safety_agent"], none⟩),
  (15, ⟨"Construction Monitoring & CV", ["construction_monitoring_cv_agent"], none⟩),
  (16, ⟨"Change Control & Claims Management", ["change_control_claims_agent"], none⟩),
  (17, ⟨"Commissioning & Asset Management", ["commissioning_asset_agent"], some "G6"⟩),
  (18, ⟨"Digital Twin Finalization & Handover", ["bim_cad_documentation_agent"], none⟩)]

/-- The static decision-gate table, transcribed from the DECISION_GATES
dictionary of workflow_engine.py. -/
def DECISION_GATES : List (String × GateInfo) := [
  ("G0", ⟨"Project Charter Approval", 1⟩),
  ("G1", ⟨"Strategy/Options Approval", 4⟩),
  ("G2", ⟨"Concept Design Approval", 6⟩),
  ("G3", ⟨"Schematic/Prelim Engineering Approval", 8⟩),
  ("G4", ⟨"Design Development/BIM Approval", 10⟩),
  ("G5", ⟨"Construction Docs/Permits Approval", 12⟩),
  ("G6", ⟨"Handover/Digital Twin Approval", 18⟩)]

/-- Membership test mirroring the Python test stage_id in WORKFLOW_STAGES. -/
def isStage (s : Nat) : Bool := WORKFLOW_STAGES.any (fun p => p.1 == s)

/-- Lookup mirroring the indexing WORKFLOW_STAGES at stage_id. -/
def lookupStage (s : Nat) : Option StageInfo :=
  (WORKFLOW_STAGES.find? (fun p => p.1 == s)).map (·.2)

/-- Lookup mirroring the indexing DECISION_GATES at gate_id. -/
def lookupGate (g : String) : Option GateInfo :=
  (DECISION_GATES.find? (fun p => p.1 == g)).map (·.2)

/-- Result of attempting to parse a JSON artifact file: either a parsed
payload (kept opaque) or a parse failure. -/
inductive JsonContent where
  | obj (payload : String)
  | malformed
deriving DecidableEq, Repr

/-- A file stored in a stage subdirectory of the project store, keyed by
filename stem and suffix. -/
structure Artifact where
  stem : String
  suffix : String
  content : JsonContent
deriving DecidableEq, Repr

/-- The approval record written for a decision gate, as in the body of
the approve endpoint. -/
structure ApprovalRecord where
  approved_by : String
  comments : String
  approved : Bool
deriving DecidableEq, Repr

/-- The approval record that run_stage writes when it auto-approves a
trailing gate. -/
def autoRecord : ApprovalRecord :=
  ⟨"system", "Auto-approved for continuous workflow", true⟩

/-- The raw output dictionary returned by one agent invocation; the
engine only threads it through, so the payload is kept opaque next to
the status field it may carry. -/
structure AgentResult where
  status : String
  payload : String
deriving DecidableEq, Repr

/-- Values stored in the aggregated input mapping handed to agents. -/
inductive InputValue where
  | initData (d : String)
  | stageNum (n : Nat)
  | jsonVal (payload : String)
  | emptyMap
  | results (rs : List AgentResult)
deriving DecidableEq, Repr

/-- The aggregated input mapping, observed through lookup only (the
engine never iterates it), modelled extensionally. -/
def Dict : Type := String → Option InputValue

/-- Dictionary assignment: gathered_inputs at key becomes v. -/
def dictInsert (d : Dict) (key : String) (v : InputValue) : Dict :=
  fun k => if k = key then some v else d k

/-- The filesystem state of one project: the intake payload held by the
manager, the artifact files of each stage subdirectory, and the gate
approval files at the project root. -/
structure ProjState where
  initialData : String
  stages : Nat → List Artifact
  approvals : List (String × ApprovalRecord)

/-- A project directory as created by initializing a manager with no
initial data: empty stage subdirectories and no approval files. -/
def freshState : ProjState :=
  { initialData := "", stages := fun _ => [], approvals := [] }

/-- True when an approval file for the gate exists in the project
directory. -/
def hasApproval (st : ProjState) (g : String) : Bool :=
  st.approvals.any (fun p => p.1 == g)

/-- Writing the gate approval file: a full overwrite when the file
exists, a fresh file otherwise. -/
def writeApproval (st : ProjState) (g : String) (r : ApprovalRecord) : ProjState :=
  { st with approvals :=
      if st.approvals.any (fun p => p.1 == g) then
        st.approvals.map (fun p => if p.1 == g then (g, r) else p)
      else
        st.approvals ++ [(g, r)] }

/-- Embeds WorkflowManager get_pending_gate: the first gate in
declaration order whose approval file does not exist. -/
def pending_gate (st : ProjState) : Option String :=
  (DECISION_GATES.find? (fun gd => !hasApproval st gd.1)).map (·.1)

/-- Writing one artifact file into a stage directory: a full overwrite
when a file with the same stem and suffix exists. -/
def writeFile (dir : List Artifact) (a : Artifact) : List Artifact :=
  if dir.any (fun b => b.stem == a.stem && b.suffix == a.suffix) then
    dir.map (fun b => if b.stem == a.stem && b.suffix == a.suffix then a else b)
  else
    dir ++ [a]

/-- Applies one artifact write to the stage subdirectory it targets. -/
def writeToStage (st : ProjState) (i : Nat) (a : Artifact) : ProjState :=
  { st with stages := fun j => if j = i then writeFile (st.stages i) a else st.stages j }

/-- Applies the artifact writes an agent performed during its call. -/
def applyWrites (st : ProjState) (ws : List (Nat × Artifact)) : ProjState :=
  ws.foldl (fun s w => writeToStage s w.1 w.2) st

/-- The reserved entries gathered first: the intake payload under
initial_data and the stage number under stage_id. -/
def initialInputs (st : ProjState) (stageId : Nat) : Dict :=
  dictInsert (dictInsert (fun _ => none) "initial_data" (.initData st.initialData))
    "stage_id" (.stageNum stageId)

/-- Processing of one artifact file during aggregation: a JSON file is
parsed and stored under its stem, a parse failure is stored as an empty
mapping and logs a warning (collected in the second component), any
other file is skipped. -/
def gatherStep (acc : Dict × List String) (a : Artifact) : Dict × List String :=
  if a.suffix = "json" then
    match a.content with
    | .obj p => (dictInsert acc.1 a.stem (.jsonVal p), acc.2)
    | .malformed => (dictInsert acc.1 a.stem .emptyMap, acc.2 ++ [a.stem])
  else acc

/-- Aggregation over the files of one stage directory. -/
def gatherArts (acc : Dict × List String) (arts : List Artifact) : Dict × List String :=
  arts.foldl gatherStep acc

/-- Aggregation over a list of stage numbers. -/
def gatherStages (st : ProjState) (acc : Dict × List String) (is : List Nat) :
    Dict × List String :=
  is.foldl (fun a i => gatherArts a (st.stages i)) acc

/-- Embeds WorkflowManager gather_inputs_for_stage: reserved keys first,
then every JSON artifact of stages 1 up to stageId - 1 merged in under
its filename stem; returns the mapping and the warnings logged. -/
def gather_inputs_for_stage (st : ProjState) (stageId : Nat) : Dict × List String :=
  gatherStages st (initialInputs st stageId, []) (List.range' 1 (stageId - 1))

/-- Outcome of the registry lookup and capability call for one agent:
absent from the registry, raised an exception, or returned a result
after writing some artifact files. -/
inductive AgentOutcome where
  | missing
  | raises (msg : String)
  | returns (result : AgentResult) (writes : List (Nat × Artifact))

/-- Result extracted from an outcome that returned normally. -/
def AgentOutcome.resultOf : AgentOutcome → Option AgentResult
  | .returns r _ => some r
  | _ => none

/-- True when the outcome is a raised exception. -/
def AgentOutcome.isRaises : AgentOutcome → Bool
  | .raises _ => true
  | _ => false

/-- The external collaborator boundary: given agent identifier, stage
number, the input mapping handed over, and the stage results gathered so
far, the environment determines the call outcome. -/
def Env : Type :=
  String → Nat → Dict → List AgentResult → AgentOutcome

/-- Errors the engine can surface: the artificial fuel bound, the two
ValueError lookups, and an exception escaping an agent call. -/
inductive EngineErr where
  | outOfFuel
  | stageNotFound (s : Nat)
  | gateNotFound (g : String)
  | agentRaised (agent : String) (msg : String)
deriving DecidableEq, Repr

/-- Return values of the two engine entry points: the completed-stage
dictionary of run_stage and the approved dictionary of approve_gate
(with the workflow-complete flag distinguishing its two messages). -/
inductive EngineOut where
  | stageDone (stage : Nat) (results : List AgentResult)
  | gateApproved (gate : String) (workflowComplete : Bool)
deriving DecidableEq, Repr

/-- The sequential agent loop of run_stage: each agent is looked up in
the registry (a miss logs a warning and is skipped), receives the stage
input plus the results of the agents already run, and its result is
appended whatever its status; an exception escaping the call aborts the
loop. -/
def runAgents (env : Env) (stageId : Nat) (baseInput : Dict) :
    List String → ProjState → List AgentResult →
    ProjState × Except EngineErr (List AgentResult)
  | [], st, acc => (st, .ok acc)
  | name :: rest, st, acc =>
    match env name stageId (dictInsert baseInput "stage_results" (.results acc)) acc with
    | .missing => runAgents env stageId baseInput rest st acc
    | .raises msg => (st, .error (.agentRaised name msg))
    | .returns res ws => runAgents env stageId baseInput rest (applyWrites st ws) (acc ++ [res])

/-- The two mutually recursive engine entry points, merged into one
fuel-indexed step function (the fuel only bounds the recursion depth,
which is at most 24 for the 18-stage graph). -/
inductive Cmd where
  | run (s : Nat)
  | approve (g : String) (r : ApprovalRecord)

/-- Embeds the mutual recursion of WorkflowManager run_stage and
approve_gate. run_stage validates the stage id, gathers inputs, runs the
agent loop, then auto-approves a trailing gate or recurses into the next
stage. approve_gate validates the gate id, writes the approval file, and
then runs the stage after stage_before when it exists. State changes
performed before an error persist alongside the propagated error. -/
def step (env : Env) : Nat → ProjState → Cmd → ProjState × Except EngineErr EngineOut
  | 0, st, _ => (st, .error .outOfFuel)
  | fuel + 1, st, .run s =>
    match lookupStage s with
    | none => (st, .error (.stageNotFound s))
    | some info =>
      let inputs := (gather_inputs_for_stage st s).1
      let ordered := if s = 2 then ["data_harvester_agent", "geospatial_site_context_agent"]
        else info.agents
      match runAgents env s inputs ordered st [] with
      | (st1, .error e) => (st1, .error e)
      | (st1, .ok results) =>
        match info.gate_after with
        | some g =>
          match step env fuel st1 (.approve g autoRecord) with
          | (st2, .error e) => (st2, .error e)
          | (st2, .ok _) => (st2, .ok (.stageDone s results))
        | none =>
          if isStage (s + 1) then
            match step env fuel st1 (.run (s + 1)) with
            | (st2, .error e) => (st2, .error e)
            | (st2, .ok _) => (st2, .ok (.stageDone s results))
          else (st1, .ok (.stageDone s results))
  | fuel + 1, st, .approve g r =>
    match lookupGate g with
    | none => (st, .error (.gateNotFound g))
    | some ginfo =>
      let st1 := writeApproval st g r
      if isStage (ginfo.stage_before + 1) then
        match step env fuel st1 (.run (ginfo.stage_before + 1)) with
        | (st2, .error e) => (st2, .error e)
        | (st2, .ok _) => (st2, .ok (.gateApproved g false))
      else (st1, .ok (.gateApproved g true))

/-- Embeds WorkflowManager run_stage. -/
def run_stage (env : Env) (fuel : Nat) (st : ProjState) (s : Nat) :
    ProjState × Except EngineErr EngineOut :=
  step env fuel st (.run s)

/-- Embeds WorkflowManager approve_gate. -/
def approve_gate (env : Env) (fuel : Nat) (st : ProjState) (g : String) (r : ApprovalRecord) :
    ProjState × Except EngineErr EngineOut :=
  step env fuel st (.approve g r)

/-- Stage statuses derived by get_project_status. -/
inductive StageStatus where
  | locked
  | pending
  | completed
deriving DecidableEq, Repr

/-- The file suffixes get_project_status lists as artifacts of a stage
(other files are skipped by its suffix dispatch). -/
def visibleArtifact (a : Artifact) : Bool :=
  a.suffix == "json" || a.suffix == "txt" || a.suffix == "md"

/-- The unlock boundary: stage_before of the pending gate, or 18 when
every gate is approved. -/
def unlockedUntil (st : ProjState) : Nat :=
  match pending_gate st with
  | none => 18
  | some g =>
    match lookupGate g with
    | some gi => gi.stage_before
    | none => 18

/-- Embeds the per-stage status derivation of get_project_status: any
listed artifact means Completed, otherwise stages up to the unlock
boundary are Pending and the rest Locked, with stage 1 forced to at
least Pending. -/
def stageStatus (st : ProjState) (sid : Nat) : StageStatus :=
  let has := ((st.stages sid).filter visibleArtifact) ≠ []
  let base : StageStatus :=
    if has then .completed
    else if sid ≤ unlockedUntil st then .pending
    else .locked
  if sid = 1 ∧ ¬has then .pending else base

/-- The status payload returned by get_project_status. -/
structure StatusPayload where
  stages : List (Nat × StageStatus)
  pendingGateId : Option String
deriving DecidableEq, Repr

/-- Embeds WorkflowManager get_project_status. -/
def get_project_status (st : ProjState) : StatusPayload :=
  { stages := WORKFLOW_STAGES.map (fun p => (p.1, stageStatus st p.1)),
    pendingGateId := pending_gate st }

/-- Embeds the GET projects/id endpoint of backend/main.py: the manager
constructor initializes the project directory (creating it when absent,
with an empty intake payload), so the status of a never-created project
id is computed from a fresh directory rather than failing; the error
branch mapping exceptions to HTTP 404 is the Except.error case. -/
def getProjectStatusEndpoint (store : List (String × ProjState)) (pid : String) :
    List (String × ProjState) × Except Nat StatusPayload :=
  match store.find? (fun p => p.1 == pid) with
  | some p => (store, .ok (get_project_status p.2))
  | none => (store ++ [(pid, freshState)], .ok (get_project_status freshState))

/-- Environment in which every registry lookup misses. -/
def envMissing : Env := fun _ _ _ _ => .missing

/-- A human approval record used in concrete scenarios. -/
def humanRecord : ApprovalRecord := ⟨"alice", "ok", true⟩

/-- Environment in which the first agent of stage 6 raises and every
other agent returns a success result with no writes. -/
def envC2 : Env := fun n _ _ _ =>
  if n = "space_planning_adjacency_agent" then .raises "boom"
  else .returns ⟨"success", "fine"⟩ []

/-- Script in which every agent returns a result with an error status
and performs no writes. -/
def errScript : String → AgentOutcome := fun n => .returns ⟨"error", n⟩ []

/-- Project state in which stage 1 holds a JSON artifact whose filename
stem collides with the reserved key stage_id. -/
def stC3 : ProjState :=
  { initialData := "intake",
    stages := fun j => if j = 1 then [⟨"stage_id", "json", .obj "evil"⟩] else [],
    approvals := [] }

/-- Project state in which stage 1 holds one malformed and one
well-formed JSON artifact. -/
def stC8 : ProjState :=
  { initialData := "intake",
    stages := fun j =>
      if j = 1 then [⟨"bad", "json", .malformed⟩, ⟨"good", "json", .obj "fine"⟩] else [],
    approvals := [] }

/-- Project state in which only gate G0 has an approval record. -/
def stG0 : ProjState := { freshState with approvals := [("G0", humanRecord)] }

/-- Claim C1 (counterexample): completing run_stage on a stage with a
trailing gate does not leave that gate pending: run_stage(1) completes
with every gate auto-approved, so pending_gate is none rather than G0;
likewise approving G0 does not stop at G1 — afterwards pending_gate is
none, contradicting the claimed Scenario B. -/
theorem c1_counterexample :
    (run_stage envMissing 30 freshState 1).2 = .ok (.stageDone 1 [])
    ∧ pending_gate (run_stage envMissing 30 freshState 1).1 = none
    ∧ pending_gate (approve_gate envMissing 30 freshState "G0" humanRecord).1 = none := by
  refine ⟨rfl, by decide, by decide⟩

/-- Claim C2 (counterexample): an agent whose capability raises aborts
the stage: in stage 6 the first agent raises and run_stage surfaces the
exception upward instead of recording it and continuing with the second
agent. -/
theorem c2_counterexample :
    (run_stage envC2 5 freshState 6).2
      = .error (.agentRaised "space_planning_adjacency_agent" "boom") := rfl

/-- Claim C3 (counterexample): the reserved key stage_id is overwritten
by a stage-1 artifact whose filename stem is stage_id, so the input
mapping for stage 2 no longer holds the stage number under it. -/
theorem c3_counterexample :
    (gather_inputs_for_stage stC3 2).1 "stage_id" = some (.jsonVal "evil")
    ∧ (gather_inputs_for_stage stC3 2).1 "stage_id" ≠ some (.stageNum 2) := by
  refine ⟨by decide, by decide⟩

/-- Claim C4 (counterexample): it is not the case that every gate has
stage_before equal to the stage that declares it as trailing gate:
stage 17 declares G6, whose stage_before is 18. -/
theorem c4_counterexample :
    (WORKFLOW_STAGES.all (fun p =>
        Option.all (fun gi => gi.stage_before == p.1) (Option.bind p.2.gate_after lookupGate)))
      = false
    ∧ (lookupStage 17).bind (·.gate_after) = some "G6"
    ∧ (lookupGate "G6").map (·.stage_before) = some 18 := by
  refine ⟨by decide, by decide, by decide⟩

/-- Claim C4 (amended): stage ids are contiguous 1..18, each gate id is
the trailing gate of exactly one stage, and stage_before matches the
declaring stage for every gate except G6, which is declared after stage
17 while its stage_before is 18. -/
theorem c4_graph_spec :
    WORKFLOW_STAGES.map Prod.fst = List.range' 1 18
    ∧ (DECISION_GATES.all (fun gd =>
        (WORKFLOW_STAGES.filter (fun p => p.2.gate_after == some gd.1)).length == 1)) = true
    ∧ (WORKFLOW_STAGES.all (fun p => p.1 == 17 ||
        Option.all (fun gi => gi.stage_before == p.1) (Option.bind p.2.gate_after lookupGate)))
      = true
    ∧ (lookupStage 17).bind (·.gate_after) = some "G6"
    ∧ (lookupGate "G6").map (·.stage_before) = some 18 := by
  refine ⟨by decide, by decide, by decide, by decide, by decide⟩

/-- Claim C9 (code evaluated at the failing input): requesting the
status of a project id that was never created does not fail with a
404-equivalent; the endpoint creates the project directory in the store
and returns a success payload with stage 1 pending and gate G0
unresolved. -/
theorem c9_unknown_project_status :
    (getProjectStatusEndpoint [] "ghost").2 = .ok (get_project_status freshState)
    ∧ (getProjectStatusEndpoint [] "ghost").1 = [("ghost", freshState)]
    ∧ (get_project_status freshState).pendingGateId = some "G0"
    ∧ (get_project_status freshState).stages.take 2
        = [(1, .pending), (2, .locked)] := by
  refine ⟨rfl, rfl, by decide, by decide⟩

/-- Unfolding of aggregation over an empty artifact list. -/
theorem gatherArts_nil (acc : Dict × List String) : gatherArts acc [] = acc := rfl

/-- Unfolding of aggregation over a nonempty artifact list. -/
theorem gatherArts_cons (acc : Dict × List String) (a : Artifact) (t : List Artifact) :
    gatherArts acc (a :: t) = gatherArts (gatherStep acc a) t := rfl

/-- Unfolding of aggregation over an empty stage list. -/
theorem gatherStages_nil (st : ProjState) (acc : Dict × List String) :
    gatherStages st acc [] = acc := rfl

/-- Unfolding of aggregation over a nonempty stage list. -/
theorem gatherStages_cons (st : ProjState) (acc : Dict × List String) (i : Nat) (t : List Nat) :
    gatherStages st acc (i :: t) = gatherStages st (gatherArts acc (st.stages i)) t := rfl

/-- Processing one artifact either leaves a key unchanged or the
artifact is a JSON file whose stem is that key. -/
theorem gatherStep_fst_eq_or (acc : Dict × List String) (a : Artifact) (k : String) :
    (gatherStep acc a).1 k = acc.1 k ∨ (a.suffix = "json" ∧ a.stem = k) := by
  by_cases hs : a.suffix = "json"
  · by_cases hk : k = a.stem
    · exact Or.inr ⟨hs, hk.symm⟩
    · left
      cases hc : a.content <;> simp [gatherStep, hs, hc, dictInsert, hk]
  · left; simp [gatherStep, hs]

/-- Processing one artifact preserves the presence of a key. -/
theorem gatherStep_isSome (acc : Dict × List String) (a : Artifact) (k : String)
    (h : (acc.1 k).isSome = true) : ((gatherStep acc a).1 k).isSome = true := by
  by_cases hs : a.suffix = "json"
  · cases hc : a.content <;> by_cases hk : k = a.stem <;>
      simp [gatherStep, hs, hc, dictInsert, hk, h]
  · simp [gatherStep, hs, h]

/-- Processing a JSON artifact makes its own stem present. -/
theorem gatherStep_self (acc : Dict × List String) (a : Artifact) (hs : a.suffix = "json") :
    ((gatherStep acc a).1 a.stem).isSome = true := by
  cases hc : a.content <;> simp [gatherStep, hs, hc, dictInsert]

/-- Processing one artifact preserves logged warnings. -/
theorem gatherStep_snd_keeps (acc : Dict × List String) (a : Artifact) (w : String)
    (h : w ∈ acc.2) : w ∈ (gatherStep acc a).2 := by
  by_cases hs : a.suffix = "json"
  · cases hc : a.content <;> simp [gatherStep, hs, hc, h]
  · simp [gatherStep, hs, h]

/-- Processing a malformed JSON artifact logs a warning for its stem. -/
theorem gatherStep_warn_self (acc : Dict × List String) (a : Artifact)
    (hs : a.suffix = "json") (hm : a.content = .malformed) :
    a.stem ∈ (gatherStep acc a).2 := by
  simp [gatherStep, hs, hm]

/-- An empty-mapping value survives processing an artifact that is
malformed whenever it targets the same stem. -/
theorem gatherStep_empty_keeps (acc : Dict × List String) (a : Artifact) (k : String)
    (hk : acc.1 k = some .emptyMap)
    (hall : a.suffix = "json" → a.stem = k → a.content = .malformed) :
    (gatherStep acc a).1 k = some .emptyMap := by
  by_cases hs : a.suffix = "json"
  · by_cases hk2 : a.stem = k
    · have hm := hall hs hk2
      simp [gatherStep, hs, hm, dictInsert, hk2]
    · cases hc : a.content <;>
        simp [gatherStep, hs, hc, dictInsert, show ¬ k = a.stem from fun h => hk2 h.symm, hk]
  · simp [gatherStep, hs, hk]

/-- Processing a malformed JSON artifact records an empty mapping under
its stem. -/
theorem gatherStep_empty_self (acc : Dict × List String) (a : Artifact)
    (hs : a.suffix = "json") (hm : a.content = .malformed) :
    (gatherStep acc a).1 a.stem = some .emptyMap := by
  simp [gatherStep, hs, hm, dictInsert]

/-- Aggregating a directory preserves the presence of a key. -/
theorem gatherArts_isSome (arts : List Artifact) :
    ∀ (acc : Dict × List String) (k : String), (acc.1 k).isSome = true →
    ((gatherArts acc arts).1 k).isSome = true := by
  induction arts with
  | nil => intro acc k h; simpa [gatherArts_nil] using h
  | cons a t ih =>
    intro acc k h
    rw [gatherArts_cons]
    exact ih (gatherStep acc a) k (gatherStep_isSome acc a k h)

/-- Every JSON artifact of a directory is present after aggregating the
directory. -/
theorem gatherArts_covers (arts : List Artifact) :
    ∀ (acc : Dict × List String) (a : Artifact), a ∈ arts → a.suffix = "json" →
    ((gatherArts acc arts).1 a.stem).isSome = true := by
  induction arts with
  | nil => intro acc a h; exact absurd h (List.not_mem_nil a)
  | cons b t ih =>
    intro acc a ha hs
    rw [gatherArts_cons]
    rcases List.mem_cons.mp ha with h | h
    · subst h
      exact gatherArts_isSome t (gatherStep acc a) a.stem (gatherStep_self acc a hs)
    · exact ih (gatherStep acc b) a h hs

/-- A key of the aggregate of a directory is either inherited from the
accumulator or the stem of a JSON artifact of the directory. -/
theorem gatherArts_origin (arts : List Artifact) :
    ∀ (acc : Dict × List String) (k : String),
    (gatherArts acc arts).1 k = acc.1 k ∨
      ∃ a, a ∈ arts ∧ a.suffix = "json" ∧ a.stem = k := by
  induction arts with
  | nil => intro acc k; left; rfl
  | cons b t ih =>
    intro acc k
    rw [gatherArts_cons]
    rcases ih (gatherStep acc b) k with h | ⟨a, hmem, hs, hst⟩
    · rcases gatherStep_fst_eq_or acc b k with h2 | ⟨hs, hst⟩
      · left; rw [h, h2]
      · right; exact ⟨b, List.mem_cons_self b t, hs, hst⟩
    · right; exact ⟨a, List.mem_cons_of_mem b hmem, hs, hst⟩

/-- Aggregating a directory preserves logged warnings. -/
theorem gatherArts_snd_keeps (arts : List Artifact) :
    ∀ (acc : Dict × List String) (w : String), w ∈ acc.2 →
    w ∈ (gatherArts acc arts).2 := by
  induction arts with
  | nil => intro acc w h; simpa [gatherArts_nil] using h
  | cons a t ih =>
    intro acc w h
    rw [gatherArts_cons]
    exact ih (gatherStep acc a) w (gatherStep_snd_keeps acc a w h)

/-- A malformed JSON artifact of a directory leaves a warning in the
aggregate of the directory. -/
theorem gatherArts_warns (arts : List Artifact) :
    ∀ (acc : Dict × List String) (a : Artifact), a ∈ arts → a.suffix = "json" →
    a.content = .malformed → a.stem ∈ (gatherArts acc arts).2 := by
  induction arts with
  | nil => intro acc a h; exact absurd h (List.not_mem_nil a)
  | cons b t ih =>
    intro acc a ha hs hm
    rw [gatherArts_cons]
    rcases List.mem_cons.mp ha with h | h
    · subst h
      exact gatherArts_snd_keeps t (gatherStep acc a) a.stem (gatherStep_warn_self acc a hs hm)
    · exact ih (gatherStep acc b) a h hs hm

/-- An empty-mapping value survives aggregating a directory whose
same-stem JSON artifacts are all malformed. -/
theorem gatherArts_empty_keeps (arts : List Artifact) :
    ∀ (acc : Dict × List String) (k : String), acc.1 k = some .emptyMap →
    (∀ a, a ∈ arts → a.suffix = "json" → a.stem = k → a.content = .malformed) →
    (gatherArts acc arts).1 k = some .emptyMap := by
  induction arts with
  | nil => intro acc k h _; simpa [gatherArts_nil] using h
  | cons a t ih =>
    intro acc k h hall
    rw [gatherArts_cons]
    refine ih (gatherStep acc a) k ?_ (fun x hx => hall x (List.mem_cons_of_mem a hx))
    exact gatherStep_empty_keeps acc a k h (hall a (List.mem_cons_self a t))

/-- Aggregating a directory that contains a malformed JSON artifact,
all of whose same-stem JSON artifacts are malformed, records an empty
mapping under its stem. -/
theorem gatherArts_empty_sets (arts : List Artifact) :
    ∀ (acc : Dict × List String) (a : Artifact), a ∈ arts → a.suffix = "json" →
    a.content = .malformed →
    (∀ b, b ∈ arts → b.suffix = "json" → b.stem = a.stem → b.content = .malformed) →
    (gatherArts acc arts).1 a.stem = some .emptyMap := by
  induction arts with
  | nil => intro acc a h; exact absurd h (List.not_mem_nil a)
  | cons b t ih =>
    intro acc a ha hs hm hall
    rw [gatherArts_cons]
    rcases List.mem_cons.mp ha with h | h
    · subst h
      exact gatherArts_empty_keeps t (gatherStep acc a) a.stem
        (gatherStep_empty_self acc a hs hm)
        (fun x hx => hall x (List.mem_cons_of_mem a hx))
    · exact ih (gatherStep acc b) a h hs hm
        (fun x hx => hall x (List.mem_cons_of_mem b hx))

/-- Aggregating a list of stages preserves the presence of a key. -/
theorem gatherStages_isSome (st : ProjState) (is : List Nat) :
    ∀ (acc : Dict × List String) (k : String), (acc.1 k).isSome = true →
    ((gatherStages st acc is).1 k).isSome = true := by
  induction is with
  | nil => intro acc k h; simpa [gatherStages_nil] using h
  | cons i t ih =>
    intro acc k h
    rw [gatherStages_cons]
    exact ih (gatherArts acc (st.stages i)) k (gatherArts_isSome (st.stages i) acc k h)

/-- Every JSON artifact of every listed stage is present after
aggregating the listed stages. -/
theorem gatherStages_covers (st : ProjState) (is : List Nat) :
    ∀ (acc : Dict × List String) (i : Nat) (a : Artifact), i ∈ is →
    a ∈ st.stages i → a.suffix = "json" →
    ((gatherStages st acc is).1 a.stem).isSome = true := by
  induction is with
  | nil => intro acc i a h; exact absurd h (List.not_mem_nil i)
  | cons j t ih =>
    intro acc i a hi ha hs
    rw [gatherStages_cons]
    rcases List.mem_cons.mp hi with h | h
    · subst h
      exact gatherStages_isSome st t (gatherArts acc (st.stages i)) a.stem
        (gatherArts_covers (st.stages i) acc a ha hs)
    · exact ih (gatherArts acc (st.stages j)) i a h ha hs

/-- A key of the aggregate over listed stages is either inherited from
the accumulator or the stem of a JSON artifact of a listed stage. -/
theorem gatherStages_origin (st : ProjState) (is : List Nat) :
    ∀ (acc : Dict × List String) (k : String),
    (gatherStages st acc is).1 k = acc.1 k ∨
      ∃ i, i ∈ is ∧ ∃ a, a ∈ st.stages i ∧ a.suffix = "json" ∧ a.stem = k := by
  induction is with
  | nil => intro acc k; left; rfl
  | cons j t ih =>
    intro acc k
    rw [gatherStages_cons]
    rcases ih (gatherArts acc (st.stages j)) k with h | ⟨i, hi, a, ha, hs, hst⟩
    · rcases gatherArts_origin (st.stages j) acc k with h2 | ⟨a, ha, hs, hst⟩
      · left; rw [h, h2]
      · right; exact ⟨j, List.mem_cons_self j t, a, ha, hs, hst⟩
    · right; exact ⟨i, List.mem_cons_of_mem j hi, a, ha, hs, hst⟩

/-- Aggregating listed stages preserves logged warnings. -/
theorem gatherStages_snd_keeps (st : ProjState) (is : List Nat) :
    ∀ (acc : Dict × List String) (w : String), w ∈ acc.2 →
    w ∈ (gatherStages st acc is).2 := by
  induction is with
  | nil => intro acc w h; simpa [gatherStages_nil] using h
  | cons i t ih =>
    intro acc w h
    rw [gatherStages_cons]
    exact ih (gatherArts acc (st.stages i)) w (gatherArts_snd_keeps (st.stages i) acc w h)

/-- A malformed JSON artifact of a listed stage leaves a warning in the
aggregate over the listed stages. -/
theorem gatherStages_warns (st : ProjState) (is : List Nat) :
    ∀ (acc : Dict × List String) (i : Nat) (a : Artifact), i ∈ is →
    a ∈ st.stages i → a.suffix = "json" → a.content = .malformed →
    a.stem ∈ (gatherStages st acc is).2 := by
  induction is with
  | nil => intro acc i a h; exact absurd h (List.not_mem_nil i)
  | cons j t ih =>
    intro acc i a hi ha hs hm
    rw [gatherStages_cons]
    rcases List.mem_cons.mp hi with h | h
    · subst h
      exact gatherStages_snd_keeps st t (gatherArts acc (st.stages i)) a.stem
        (gatherArts_warns (st.stages i) acc a ha hs hm)
    · exact ih (gatherArts acc (st.stages j)) i a h ha hs hm

/-- An empty-mapping value survives aggregating listed stages whose
same-stem JSON artifacts are all malformed. -/
theorem gatherStages_empty_keeps (st : ProjState) (is : List Nat) :
    ∀ (acc : Dict × List String) (k : String), acc.1 k = some .emptyMap →
    (∀ i, i ∈ is → ∀ a, a ∈ st.stages i → a.suffix = "json" → a.stem = k →
      a.content = .malformed) →
    (gatherStages st acc is).1 k = some .emptyMap := by
  induction is with
  | nil => intro acc k h _; simpa [gatherStages_nil] using h
  | cons i t ih =>
    intro acc k h hall
    rw [gatherStages_cons]
    refine ih (gatherArts acc (st.stages i)) k ?_
      (fun j hj => hall j (List.mem_cons_of_mem i hj))
    exact gatherArts_empty_keeps (st.stages i) acc k h (hall i (List.mem_cons_self i t))

/-- Aggregating listed stages, one of which holds a malformed JSON
artifact all of whose same-stem JSON artifacts across the listed stages
are malformed, records an empty mapping under its stem. -/
theorem gatherStages_empty_sets (st : ProjState) (is : List Nat) :
    ∀ (acc : Dict × List String) (i : Nat) (a : Artifact), i ∈ is →
    a ∈ st.stages i → a.suffix = "json" → a.content = .malformed →
    (∀ j, j ∈ is → ∀ b, b ∈ st.stages j → b.suffix = "json" → b.stem = a.stem →
      b.content = .malformed) →
    (gatherStages st acc is).1 a.stem = some .emptyMap := by
  induction is with
  | nil => intro acc i a h; exact absurd h (List.not_mem_nil i)
  | cons j t ih =>
    intro acc i a hi ha hs hm hall
    rw [gatherStages_cons]
    rcases List.mem_cons.mp hi with h | h
    · subst h
      exact gatherStages_empty_keeps st t (gatherArts acc (st.stages i)) a.stem
        (gatherArts_empty_sets (st.stages i) acc a ha hs hm
          (fun b hb => hall i (List.mem_cons_self i t) b hb))
        (fun x hx => hall x (List.mem_cons_of_mem i hx))
    · exact ih (gatherArts acc (st.stages j)) i a h ha hs hm
        (fun x hx => hall x (List.mem_cons_of_mem j hx))

/-- The reserved entries hold the stage number under stage_id. -/
theorem initialInputs_stage_id (st : ProjState) (k : Nat) :
    initialInputs st k "stage_id" = some (.stageNum k) := by
  simp [initialInputs, dictInsert]

/-- The reserved entries hold the intake payload under initial_data. -/
theorem initialInputs_init (st : ProjState) (k : Nat) :
    initialInputs st k "initial_data" = some (.initData st.initialData) := by
  simp [initialInputs, dictInsert]

/-- The reserved entries hold nothing but the two reserved keys. -/
theorem initialInputs_domain (st : ProjState) (k : Nat) (key : String) (v : InputValue)
    (h : initialInputs st k key = some v) : key = "stage_id" ∨ key = "initial_data" := by
  by_cases h1 : key = "stage_id"
  · exact Or.inl h1
  · by_cases h2 : key = "initial_data"
    · exact Or.inr h2
    · simp [initialInputs, dictInsert, h1, h2] at h

/-- Membership in the scanned stage range of input aggregation. -/
theorem mem_gather_range (k i : Nat) : i ∈ List.range' 1 (k - 1) ↔ 1 ≤ i ∧ i < k ∧ 1 ≤ k := by
  rw [List.mem_range'_1]
  omega

/-- Claim C3 (amended): the input mapping built for stage k has an entry
for every JSON artifact of stages 1..k-1, every key of the mapping is a
reserved key or the stem of such an artifact (so no artifact of stage k
or later contributes), and the reserved keys initial_data and stage_id
hold the intake payload and the stage number whenever no prior artifact
stem collides with them (a colliding stem overwrites them, as the
counterexample shows). -/
theorem c3_gather_spec (st : ProjState) (k : Nat) :
    (∀ i a, 1 ≤ i → i < k → a ∈ st.stages i → a.suffix = "json" →
      (((gather_inputs_for_stage st k).1 a.stem).isSome = true))
    ∧ (∀ key v, (gather_inputs_for_stage st k).1 key = some v →
      key = "initial_data" ∨ key = "stage_id" ∨
        ∃ i, 1 ≤ i ∧ i < k ∧ ∃ a, a ∈ st.stages i ∧ a.suffix = "json" ∧ a.stem = key)
    ∧ ((∀ i a, 1 ≤ i → i < k → a ∈ st.stages i → a.suffix = "json" →
        a.stem ≠ "initial_data" ∧ a.stem ≠ "stage_id") →
      (gather_inputs_for_stage st k).1 "initial_data" = some (.initData st.initialData)
      ∧ (gather_inputs_for_stage st k).1 "stage_id" = some (.stageNum k)) := by
  refine ⟨?_, ?_, ?_⟩
  · intro i a h1 h2 ha hs
    have hk : 1 ≤ k := le_trans h1 (le_of_lt h2)
    exact gatherStages_covers st (List.range' 1 (k - 1)) (initialInputs st k, []) i a
      ((mem_gather_range k i).mpr ⟨h1, h2, hk⟩) ha hs
  · intro key v h
    rcases gatherStages_origin st (List.range' 1 (k - 1)) (initialInputs st k, []) key with
      h2 | ⟨i, hi, a, ha, hs, hst⟩
    · unfold gather_inputs_for_stage at h
      rw [h2] at h
      rcases initialInputs_domain st k key v h with h3 | h3
      · exact Or.inr (Or.inl h3)
      · exact Or.inl h3
    · rcases (mem_gather_range k i).mp hi with ⟨hi1, hi2, _⟩
      exact Or.inr (Or.inr ⟨i, hi1, hi2, a, ha, hs, hst⟩)
  · intro hclean
    constructor
    · rcases gatherStages_origin st (List.range' 1 (k - 1)) (initialInputs st k, [])
        "initial_data" with h2 | ⟨i, hi, a, ha, hs, hst⟩
      · unfold gather_inputs_for_stage
        rw [h2]
        exact initialInputs_init st k
      · rcases (mem_gather_range k i).mp hi with ⟨hi1, hi2, _⟩
        exact absurd hst (hclean i a hi1 hi2 ha hs).1
    · rcases gatherStages_origin st (List.range' 1 (k - 1)) (initialInputs st k, [])
        "stage_id" with h2 | ⟨i, hi, a, ha, hs, hst⟩
      · unfold gather_inputs_for_stage
        rw [h2]
        exact initialInputs_stage_id st k
      · rcases (mem_gather_range k i).mp hi with ⟨hi1, hi2, _⟩
        exact absurd hst (hclean i a hi1 hi2 ha hs).2

/-- Claim C3 (amended, witness): the coverage and reserved-key clauses
evaluated on concrete states. -/
theorem c3_gather_spec_witness :
    (((gather_inputs_for_stage stC8 2).1 "good").isSome = true)
    ∧ (gather_inputs_for_stage freshState 5).1 "initial_data" = some (.initData "")
    ∧ (gather_inputs_for_stage freshState 5).1 "stage_id" = some (.stageNum 5) := by
  refine ⟨?_, ?_, ?_⟩
  · exact (c3_gather_spec stC8 2).1 1 ⟨"good", "json", .obj "fine"⟩ (by decide) (by decide)
      (by simp [stC8]) rfl
  · exact ((c3_gather_spec freshState 5).2.2
      (fun i a _ _ ha _ => absurd ha (List.not_mem_nil a))).1
  · exact ((c3_gather_spec freshState 5).2.2
      (fun i a _ _ ha _ => absurd ha (List.not_mem_nil a))).2

/-- Claim C8: a malformed JSON artifact of a prior stage is recorded as
an empty mapping under its stem (provided no other same-stem prior
artifact is well-formed, since a later writer for the same stem wins), a
warning naming the stem is logged, and aggregation still records every
other JSON artifact of the prior stages — it does not abort. -/
theorem c8_malformed_spec (st : ProjState) (k i : Nat) (a : Artifact)
    (h1 : 1 ≤ i) (h2 : i < k) (ha : a ∈ st.stages i)
    (hj : a.suffix = "json") (hm : a.content = .malformed)
    (hshadow : ∀ j b, 1 ≤ j → j < k → b ∈ st.stages j → b.suffix = "json" →
      b.stem = a.stem → b.content = .malformed) :
    (gather_inputs_for_stage st k).1 a.stem = some .emptyMap
    ∧ a.stem ∈ (gather_inputs_for_stage st k).2
    ∧ ∀ j b, 1 ≤ j → j < k → b ∈ st.stages j → b.suffix = "json" →
      (((gather_inputs_for_stage st k).1 b.stem).isSome = true) := by
  have hk : 1 ≤ k := le_trans h1 (le_of_lt h2)
  refine ⟨?_, ?_, ?_⟩
  · refine gatherStages_empty_sets st (List.range' 1 (k - 1)) (initialInputs st k, []) i a
      ((mem_gather_range k i).mpr ⟨h1, h2, hk⟩) ha hj hm ?_
    intro j hj2 b hb hbs hbst
    rcases (mem_gather_range k j).mp hj2 with ⟨hj1, hjk, _⟩
    exact hshadow j b hj1 hjk hb hbs hbst
  · exact gatherStages_warns st (List.range' 1 (k - 1)) (initialInputs st k, []) i a
      ((mem_gather_range k i).mpr ⟨h1, h2, hk⟩) ha hj hm
  · intro j b hj1 hjk hb hbs
    exact gatherStages_covers st (List.range' 1 (k - 1)) (initialInputs st k, []) j b
      ((mem_gather_range k j).mpr ⟨hj1, hjk, hk⟩) hb hbs

/-- Claim C8 (witness): the malformed stage-1 artifact of a concrete
state is recorded as an empty mapping, warned about, and the well-formed
artifact beside it is still aggregated. -/
theorem c8_malformed_spec_witness :
    (gather_inputs_for_stage stC8 2).1 "bad" = some .emptyMap
    ∧ "bad" ∈ (gather_inputs_for_stage stC8 2).2
    ∧ (((gather_inputs_for_stage stC8 2).1 "good").isSome = true) := by
  have h := c8_malformed_spec stC8 2 1 ⟨"bad", "json", .malformed⟩ (by decide) (by decide)
    (by simp [stC8]) rfl rfl ?_
  · exact ⟨h.1, h.2.1, h.2.2 1 ⟨"good", "json", .obj "fine"⟩ (by decide) (by decide)
      (by simp [stC8]) rfl⟩
  · intro j b hj1 hjk hb hbs hbst
    have hj : j = 1 := by omega
    subst hj
    simp [stC8] at hb
    rcases hb with h1 | h1 <;> subst h1
    · rfl
    · simp at hbst

/-- Helper for C5: every gate listed before the one the gate scan
returned already has an approval record. -/
theorem find_gate_takeWhile (st : ProjState) :
    ∀ (l : List (String × GateInfo)) (gd : String × GateInfo),
    l.find? (fun x => !hasApproval st x.1) = some gd →
    ∀ x ∈ l.takeWhile (fun x => x.1 != gd.1), hasApproval st x.1 = true := by
  intro l
  induction l with
  | nil => intro gd h; simp [List.find?] at h
  | cons b t ih =>
    intro gd h x hx
    by_cases hb : hasApproval st b.1 = true
    · have hfind : List.find? (fun x => !hasApproval st x.1) t = some gd := by
        rwa [List.find?_cons_of_neg _ (by simp [hb])] at h
      by_cases hq : (b.1 != gd.1) = true
      · simp only [List.takeWhile_cons, hq, if_true] at hx
        rcases List.mem_cons.mp hx with h2 | h2
        · rw [h2]; exact hb
        · exact ih gd hfind x h2
      · simp only [List.takeWhile_cons, hq, if_false, Bool.false_eq_true] at hx
        exact absurd hx (List.not_mem_nil x)
    · rw [List.find?_cons_of_pos _ (by simp [hb])] at h
      have hgd : b = gd := by injection h
      simp only [List.takeWhile_cons, hgd, bne_self_eq_false, if_false,
        Bool.false_eq_true] at hx
      exact absurd hx (List.not_mem_nil x)

/-- Claim C5: pending_gate returns the first gate in declaration order
lacking an approval record (every gate declared before it is approved,
the returned gate is declared and unapproved), and returns none exactly
when every declared gate has an approval record. -/
theorem c5_pending_gate_spec (st : ProjState) :
    (pending_gate st = none ↔ ∀ gd ∈ DECISION_GATES, hasApproval st gd.1 = true)
    ∧ (∀ g, pending_gate st = some g →
        hasApproval st g = false
        ∧ (∃ gi, (g, gi) ∈ DECISION_GATES)
        ∧ ∀ gd ∈ DECISION_GATES.takeWhile (fun gd => gd.1 != g),
            hasApproval st gd.1 = true) := by
  constructor
  · simp [pending_gate, List.find?_eq_none]
  · intro g h
    unfold pending_gate at h
    rcases Option.map_eq_some'.mp h with ⟨gd, hfind, hfst⟩
    subst hfst
    refine ⟨?_, ?_, ?_⟩
    · have h2 := List.find?_some hfind
      simpa using h2
    · refine ⟨gd.2, ?_⟩
      have hmem := List.mem_of_find?_eq_some hfind
      simpa using hmem
    · exact find_gate_takeWhile st DECISION_GATES gd hfind

/-- Claim C5 (witness): with only G0 approved, pending_gate returns G1,
which is declared, unapproved, and preceded only by approved gates. -/
theorem c5_pending_gate_spec_witness :
    hasApproval stG0 "G1" = false
    ∧ (∃ gi, ("G1", gi) ∈ DECISION_GATES)
    ∧ ∀ gd ∈ DECISION_GATES.takeWhile (fun gd => gd.1 != "G1"),
        hasApproval stG0 gd.1 = true :=
  (c5_pending_gate_spec stG0).2 "G1" (by decide)

/-- Claim C6: approve_gate fails with the gate-not-found error exactly
when the gate id is not declared; on a declared gate it persists the
approval record and then runs the stage numbered stage_before + 1 when
it exists (propagating that run, its state included, as its own result),
and otherwise reports workflow completion. -/
theorem c6_approve_gate_spec (env : Env) (fuel : Nat) (st : ProjState)
    (g : String) (r : ApprovalRecord) :
    (lookupGate g = none →
      approve_gate env (fuel + 1) st g r = (st, .error (.gateNotFound g)))
    ∧ (∀ gi, lookupGate g = some gi →
      (isStage (gi.stage_before + 1) = false →
        approve_gate env (fuel + 1) st g r
          = (writeApproval st g r, .ok (.gateApproved g true)))
      ∧ (isStage (gi.stage_before + 1) = true →
        approve_gate env (fuel + 1) st g r
          = ((run_stage env fuel (writeApproval st g r) (gi.stage_before + 1)).1,
             (run_stage env fuel (writeApproval st g r) (gi.stage_before + 1)).2.map
               (fun _ => .gateApproved g false)))) := by
  constructor
  · intro h
    simp [approve_gate, step, h]
  · intro gi h
    constructor
    · intro hns
      simp [approve_gate, step, h, hns]
    · intro hs
      cases hstep : step env fuel (writeApproval st g r) (.run (gi.stage_before + 1)) with
      | mk st2 res =>
        cases res with
        | error e => simp [approve_gate, run_stage, step, h, hs, hstep, Except.map]
        | ok out => simp [approve_gate, run_stage, step, h, hs, hstep, Except.map]

/-- Claim C6 (witness): an unknown gate id fails with gate-not-found;
approving G6 (stage_before 18, no stage 19) persists the record and
reports completion; approving G0 runs stage 2 on the written state. -/
theorem c6_approve_gate_spec_witness :
    approve_gate envMissing 1 freshState "GX" humanRecord
      = (freshState, .error (.gateNotFound "GX"))
    ∧ approve_gate envMissing 1 freshState "G6" humanRecord
      = (writeApproval freshState "G6" humanRecord, .ok (.gateApproved "G6" true))
    ∧ approve_gate envMissing 1 freshState "G0" humanRecord
      = ((run_stage envMissing 0 (writeApproval freshState "G0" humanRecord) 2).1,
         (run_stage envMissing 0 (writeApproval freshState "G0" humanRecord) 2).2.map
           (fun _ => .gateApproved "G0" false)) := by
  refine ⟨?_, ?_, ?_⟩
  · exact (c6_approve_gate_spec envMissing 0 freshState "GX" humanRecord).1 rfl
  · exact (((c6_approve_gate_spec envMissing 0 freshState "G6" humanRecord).2
      ⟨"Handover/Digital Twin Approval", 18⟩ rfl).1 (by decide))
  · exact (((c6_approve_gate_spec envMissing 0 freshState "G0" humanRecord).2
      ⟨"Project Charter Approval", 1⟩ rfl).2 (by decide))

/-- Claim C7: when a stage has no trailing gate and its agent loop
completes, run_stage synchronously recurses into the next stage when it
exists (its own result wrapping that recursion), and on the highest
stage, which has no successor, it returns without further recursion. -/
theorem c7_run_stage_no_gate_spec (env : Env) (fuel : Nat) (st st1 : ProjState)
    (s : Nat) (info : StageInfo) (results : List AgentResult)
    (h1 : lookupStage s = some info) (h2 : info.gate_after = none)
    (h3 : runAgents env s (gather_inputs_for_stage st s).1
      (if s = 2 then ["data_harvester_agent", "geospatial_site_context_agent"]
        else info.agents) st [] = (st1, .ok results)) :
    (isStage (s + 1) = true →
      run_stage env (fuel + 1) st s
        = ((run_stage env fuel st1 (s + 1)).1,
           (run_stage env fuel st1 (s + 1)).2.map (fun _ => .stageDone s results)))
    ∧ (isStage (s + 1) = false →
      run_stage env (fuel + 1) st s = (st1, .ok (.stageDone s results))) := by
  constructor
  · intro hs
    cases hstep : step env fuel st1 (.run (s + 1)) with
    | mk st2 res =>
      cases res with
      | error e => simp [run_stage, step, h1, h2, h3, hs, hstep, Except.map]
      | ok out => simp [run_stage, step, h1, h2, h3, hs, hstep, Except.map]
  · intro hs
    simp [run_stage, step, h1, h2, h3, hs]

/-- Claim C7 (witness): stage 3 has no gate and recurses into stage 4;
stage 18 has no gate and no successor, so it returns directly. -/
theorem c7_run_stage_no_gate_spec_witness :
    run_stage envMissing 1 freshState 3
      = ((run_stage envMissing 0 freshState 4).1,
         (run_stage envMissing 0 freshState 4).2.map (fun _ => .stageDone 3 []))
    ∧ run_stage envMissing 1 freshState 18 = (freshState, .ok (.stageDone 18 [])) := by
  constructor
  · exact (c7_run_stage_no_gate_spec envMissing 0 freshState freshState 3
      ⟨"Feasibility & Risk Scan", ["risk_mitigation_agent"], none⟩ [] rfl rfl rfl).1 (by decide)
  · exact (c7_run_stage_no_gate_spec envMissing 0 freshState freshState 18
      ⟨"Digital Twin Finalization & Handover", ["bim_cad_documentation_agent"], none⟩ []
      rfl rfl rfl).2 (by decide)

/-- The approval check only depends on the approvals component. -/
theorem hasApproval_congr (st1 st2 : ProjState) (g : String)
    (h : st1.approvals = st2.approvals) : hasApproval st1 g = hasApproval st2 g := by
  unfold hasApproval
  rw [h]

/-- Writing an approval file makes its gate approved. -/
theorem writeApproval_self (st : ProjState) (g : String) (r : ApprovalRecord) :
    hasApproval (writeApproval st g r) g = true := by
  unfold writeApproval hasApproval
  by_cases h : st.approvals.any (fun p => p.1 == g) = true
  · have hcomp : ((fun p => p.1 == g) ∘
        fun (p : String × ApprovalRecord) => if p.1 == g then (g, r) else p)
        = fun p => p.1 == g := by
      funext p
      by_cases hp : p.1 = g <;> simp [hp, beq_iff_eq]
    simp only [h, if_true, List.any_map, hcomp]
  · simp [h]

/-- Writing an approval file keeps every approved gate approved. -/
theorem writeApproval_keeps (st : ProjState) (g x : String) (r : ApprovalRecord)
    (h : hasApproval st x = true) : hasApproval (writeApproval st g r) x = true := by
  unfold writeApproval hasApproval
  by_cases h2 : st.approvals.any (fun p => p.1 == g) = true
  · have hcomp : ((fun p => p.1 == x) ∘
        fun (p : String × ApprovalRecord) => if p.1 == g then (g, r) else p)
        = fun p => p.1 == x := by
      funext p
      by_cases hp : p.1 = g <;> simp [hp, beq_iff_eq]
    simpa only [h2, if_true, List.any_map, hcomp] using h
  · simp only [h2, if_false, Bool.false_eq_true, List.any_append]
    unfold hasApproval at h
    simp [h]

/-- Applying artifact writes never touches the approval files. -/
theorem applyWrites_approvals (ws : List (Nat × Artifact)) :
    ∀ st : ProjState, (applyWrites st ws).approvals = st.approvals := by
  induction ws with
  | nil => intro st; rfl
  | cons w t ih =>
    intro st
    have h1 : applyWrites st (w :: t) = applyWrites (writeToStage st w.1 w.2) t := rfl
    rw [h1, ih]
    rfl

/-- The agent loop never touches the approval files. -/
theorem runAgents_approvals (env : Env) (stageId : Nat) (input : Dict) :
    ∀ (agents : List String) (st : ProjState) (acc : List AgentResult),
    ((runAgents env stageId input agents st acc).1).approvals = st.approvals := by
  intro agents
  induction agents with
  | nil => intro st acc; rfl
  | cons n t ih =>
    intro st acc
    cases h : env n stageId (dictInsert input "stage_results" (.results acc)) acc with
    | missing =>
      simp only [runAgents, h]
      exact ih st acc
    | raises msg => simp [runAgents, h]
    | returns res ws =>
      simp only [runAgents, h]
      rw [ih (applyWrites st ws) (acc ++ [res]), applyWrites_approvals]

/-- The engine never removes an approval file: any gate approved before
a step stays approved after it, whatever the command, fuel, outcome. -/
theorem step_keeps_approval (env : Env) :
    ∀ (fuel : Nat) (st : ProjState) (c : Cmd) (g : String),
    hasApproval st g = true → hasApproval (step env fuel st c).1 g = true := by
  intro fuel
  induction fuel with
  | zero => intro st c g h; simpa [step] using h
  | succ f ih =>
    intro st c g h
    cases c with
    | run s =>
      cases hls : lookupStage s with
      | none => simpa [step, hls] using h
      | some info =>
        cases hra : runAgents env s (gather_inputs_for_stage st s).1
            (if s = 2 then ["data_harvester_agent", "geospatial_site_context_agent"]
              else info.agents) st [] with
        | mk st1 res =>
          have hst1 : hasApproval st1 g = true := by
            have h2 := runAgents_approvals env s (gather_inputs_for_stage st s).1
              (if s = 2 then ["data_harvester_agent", "geospatial_site_context_agent"]
                else info.agents) st []
            rw [hra] at h2
            rw [hasApproval_congr st1 st g h2]
            exact h
          cases res with
          | error e => simpa [step, hls, hra] using hst1
          | ok results =>
            cases hga : info.gate_after with
            | some gate =>
              cases hstep : step env f st1 (.approve gate autoRecord) with
              | mk st2 r2 =>
                have h2 : hasApproval st2 g = true := by
                  have h3 := ih st1 (.approve gate autoRecord) g hst1
                  rw [hstep] at h3
                  exact h3
                cases r2 <;> simpa [step, hls, hra, hga, hstep] using h2
            | none =>
              by_cases hnext : isStage (s + 1) = true
              · cases hstep : step env f st1 (.run (s + 1)) with
                | mk st2 r2 =>
                  have h2 : hasApproval st2 g = true := by
                    have h3 := ih st1 (.run (s + 1)) g hst1
                    rw [hstep] at h3
                    exact h3
                  cases r2 <;> simpa [step, hls, hra, hga, hnext, hstep] using h2
              · have hnext2 : isStage (s + 1) = false := by
                  cases hb : isStage (s + 1)
                  · rfl
                  · exact absurd hb hnext
                simpa [step, hls, hra, hga, hnext2] using hst1
    | approve g2 r =>
      cases hlg : lookupGate g2 with
      | none => simpa [step, hlg] using h
      | some gi =>
        have hw : hasApproval (writeApproval st g2 r) g = true :=
          writeApproval_keeps st g2 g r h
        by_cases hnext : isStage (gi.stage_before + 1) = true
        · cases hstep : step env f (writeApproval st g2 r) (.run (gi.stage_before + 1)) with
          | mk st2 r2 =>
            have h2 : hasApproval st2 g = true := by
              have h3 := ih (writeApproval st g2 r) (.run (gi.stage_before + 1)) g hw
              rw [hstep] at h3
              exact h3
            cases r2 <;> simpa [step, hlg, hnext, hstep] using h2
        · have hnext2 : isStage (gi.stage_before + 1) = false := by
            cases hb : isStage (gi.stage_before + 1)
            · rfl
            · exact absurd hb hnext
          simpa [step, hlg, hnext2] using hw

/-- Claim C10: approving a declared gate writes its approval record
before the downstream run begins, and the gate stays resolved in the
final state whatever the downstream run does — including when it ends in
an error, since the write is never rolled back. -/
theorem c10_approval_persists (env : Env) (fuel : Nat) (st : ProjState)
    (g : String) (r : ApprovalRecord) (gi : GateInfo)
    (h : lookupGate g = some gi) :
    hasApproval (approve_gate env (fuel + 1) st g r).1 g = true := by
  unfold approve_gate
  have hw : hasApproval (writeApproval st g r) g = true := writeApproval_self st g r
  by_cases hnext : isStage (gi.stage_before + 1) = true
  · cases hstep : step env fuel (writeApproval st g r) (.run (gi.stage_before + 1)) with
    | mk st2 r2 =>
      have h2 : hasApproval st2 g = true := by
        have h3 := step_keeps_approval env fuel (writeApproval st g r)
          (.run (gi.stage_before + 1)) g hw
        rw [hstep] at h3
        exact h3
      cases r2 <;> simpa [step, h, hnext, hstep] using h2
  · have hnext2 : isStage (gi.stage_before + 1) = false := by
      cases hb : isStage (gi.stage_before + 1)
      · rfl
      · exact absurd hb hnext
    simpa [step, h, hnext2] using hw

/-- Claim C10 (witness): approving G0 with no fuel for the downstream
run (which therefore errors) still leaves G0 resolved. -/
theorem c10_approval_persists_witness :
    hasApproval (approve_gate envMissing 1 freshState "G0" humanRecord).1 "G0" = true :=
  c10_approval_persists envMissing 0 freshState "G0" humanRecord
    ⟨"Project Charter Approval", 1⟩ rfl

/-- Claim C1 (amended): completing run_stage on a stage with a trailing
gate auto-approves that gate during the run itself: whenever the run
returns successfully, the gate already has an approval record in the
resulting state (written with the system auto-approval record), so the
engine does not wait for an external approve_gate call. -/
theorem c1_auto_approval (env : Env) (fuel : Nat) (st : ProjState) (s : Nat)
    (info : StageInfo) (g : String)
    (h1 : lookupStage s = some info) (h2 : info.gate_after = some g)
    (h3 : ∃ out, (run_stage env fuel st s).2 = Except.ok out) :
    hasApproval (run_stage env fuel st s).1 g = true := by
  obtain ⟨out, hout⟩ := h3
  cases fuel with
  | zero => simp [run_stage, step] at hout
  | succ f =>
    cases hra : runAgents env s (gather_inputs_for_stage st s).1
        (if s = 2 then ["data_harvester_agent", "geospatial_site_context_agent"]
          else info.agents) st [] with
    | mk st1 res =>
      cases res with
      | error e => simp [run_stage, step, h1, hra] at hout
      | ok results =>
        cases hstep : step env f st1 (.approve g autoRecord) with
        | mk st2 r2 =>
          cases r2 with
          | error e => simp [run_stage, step, h1, h2, hra, hstep] at hout
          | ok out2 =>
            have hres : (run_stage env (f + 1) st s).1 = st2 := by
              simp [run_stage, step, h1, h2, hra, hstep]
            rw [hres]
            cases f with
            | zero => simp [step] at hstep
            | succ f2 =>
              cases hlg : lookupGate g with
              | none => simp [step, hlg] at hstep
              | some gi =>
                by_cases hnext : isStage (gi.stage_before + 1) = true
                · cases hstep2 : step env f2 (writeApproval st1 g autoRecord)
                      (.run (gi.stage_before + 1)) with
                  | mk st3 r3 =>
                    cases r3 with
                    | error e => simp [step, hlg, hnext, hstep2] at hstep
                    | ok o3 =>
                      have hst : st3 = st2 := by
                        simp [step, hlg, hnext, hstep2] at hstep
                        exact hstep.1
                      have h4 := step_keeps_approval env f2 (writeApproval st1 g autoRecord)
                        (.run (gi.stage_before + 1)) g (writeApproval_self st1 g autoRecord)
                      rw [hstep2] at h4
                      rwa [hst] at h4
                · have hnext2 : isStage (gi.stage_before + 1) = false := by
                    cases hb : isStage (gi.stage_before + 1)
                    · rfl
                    · exact absurd hb hnext
                  have hst : writeApproval st1 g autoRecord = st2 := by
                    simp [step, hlg, hnext2] at hstep
                    exact hstep.1
                  rw [← hst]
                  exact writeApproval_self st1 g autoRecord

/-- Claim C1 (amended, witness): running stage 1 from a fresh project
succeeds and leaves its trailing gate G0 auto-approved. -/
theorem c1_auto_approval_witness :
    hasApproval (run_stage envMissing 30 freshState 1).1 "G0" = true :=
  c1_auto_approval envMissing 30 freshState 1
    ⟨"Client Intake", ["briefing_constraint_extraction_agent"], some "G0"⟩ "G0"
    rfl rfl ⟨.stageDone 1 [], rfl⟩

/-- Claim C2 (amended): when no agent of a stage raises, the agent loop
visits every agent and completes with an ok result list that contains,
in order, the result returned by every registered agent — error-status
results included, alongside successes — while missing agents are
skipped; so a stage completes even if every agent returned an error. -/
theorem c2_error_results_recorded (script : String → AgentOutcome) (stageId : Nat)
    (input : Dict) (h : ∀ n, (script n).isRaises = false) :
    ∀ (agents : List String) (st : ProjState) (acc : List AgentResult),
    ∃ st', runAgents (fun n _ _ _ => script n) stageId input agents st acc
      = (st', .ok (acc ++ agents.filterMap (fun n => (script n).resultOf))) := by
  intro agents
  induction agents with
  | nil => intro st acc; exact ⟨st, by simp [runAgents]⟩
  | cons n t ih =>
    intro st acc
    cases hs : script n with
    | raises m =>
      have h2 := h n
      rw [hs] at h2
      simp [AgentOutcome.isRaises] at h2
    | missing =>
      obtain ⟨st', he⟩ := ih st acc
      refine ⟨st', ?_⟩
      simp only [runAgents, hs]
      rw [he, List.filterMap_cons]
      simp [hs, AgentOutcome.resultOf]
    | returns r ws =>
      obtain ⟨st', he⟩ := ih (applyWrites st ws) (acc ++ [r])
      refine ⟨st', ?_⟩
      simp only [runAgents, hs]
      rw [he, List.filterMap_cons]
      simp [hs, AgentOutcome.resultOf]

/-- Claim C2 (amended, witness): two agents both returning error-status
results are both recorded, in order, and the loop still returns ok. -/
theorem c2_error_results_recorded_witness :
    ∃ st', runAgents (fun n _ _ _ => errScript n) 6 (fun _ => none)
        ["space_planning_adjacency_agent", "interior_design_agent"] freshState []
      = (st', .ok ([] ++ (["space_planning_adjacency_agent", "interior_design_agent"].filterMap
          (fun n => (errScript n).resultOf)))) :=
  c2_error_results_recorded errScript 6 (fun _ => none) (fun _ => rfl)
    ["space_planning_adjacency_agent", "interior_design_agent"] freshState []

end ArchWorkflow
